import Mathlib

/-!
Verification of the pixel-transform core of the Pictures-Manipulation
repository (src/picture_to_sketch.py and src/picture_to_bichrome.py).

The two scripts operate on decoded `uint8` pixel buffers (numpy arrays in
OpenCV's BGR channel order).  We embed the numeric core shallowly:

* a buffer is a `height × width × channels` grid of natural-number samples
  (each sample a `uint8` value, i.e. `≤ 255` for buffers produced by
  `cv2.imread`);
* every OpenCV primitive the scripts call (`cvtColor` with `COLOR_BGR2GRAY`,
  `bitwise_not`, `GaussianBlur`, `divide` with `scale=256.0`,
  `threshold` with `THRESH_BINARY`) is given its documented integer
  semantics as an executable Lean function;
* file-system access, the GUI dialogs and `imwrite` are external
  collaborators and are out of scope: each transform is modelled from the
  point where a decoded buffer is in hand, returning `Except` instead of
  raising/printing.
-/

namespace PicturesManipulation

/-- A decoded pixel buffer: `height × width` pixels, each pixel holding
`channels` samples.  `data i j c` is the sample of channel `c` of the pixel
in row `i`, column `j`.  For buffers coming from `cv2.imread` the channel
order is B, G, R (and A last when present) and every sample is `≤ 255`.
A 1-channel buffer corresponds to a 2-dimensional numpy array. -/
structure Img where
  height : ℕ
  width : ℕ
  channels : ℕ
  data : ℕ → ℕ → ℕ → ℕ

/-- A single-channel (grayscale) buffer, i.e. a 2-dimensional numpy array. -/
structure Gray where
  height : ℕ
  width : ℕ
  data : ℕ → ℕ → ℕ

/-- View a grayscale buffer as a 1-channel image buffer (the shape a
2-dimensional array has when it is the final result of a transform). -/
def Gray.toImg (g : Gray) : Img :=
  ⟨g.height, g.width, 1, fun i j _ => g.data i j⟩

/-- OpenCV's `cvtColor(·, COLOR_BGR2GRAY)` per-pixel formula for 8-bit
input: fixed-point luma `Y = (R·4899 + G·9617 + B·1868 + 2^13) >> 14`
(the coefficients are `round(0.299·2^14)`, `round(0.587·2^14)`,
`round(0.114·2^14)`; they sum to `2^14`). -/
def bgr2grayPix (b g r : ℕ) : ℕ :=
  (4899 * r + 9617 * g + 1868 * b + 8192) / 16384

/-- `cv2.cvtColor(img, cv2.COLOR_BGR2GRAY)`: channel 0 is blue, channel 1
green, channel 2 red (OpenCV loads images in BGR order). -/
def cvtColor_BGR2GRAY (img : Img) : Gray :=
  ⟨img.height, img.width, fun i j =>
    bgr2grayPix (img.data i j 0) (img.data i j 1) (img.data i j 2)⟩

/-- `cv2.bitwise_not` on a `uint8` grayscale buffer: each sample `x`
becomes `255 - x` (samples of decoded buffers are `≤ 255`). -/
def bitwise_not (g : Gray) : Gray :=
  ⟨g.height, g.width, fun i j => 255 - g.data i j⟩

/-- OpenCV's `borderInterpolate(p, n, BORDER_REFLECT_101)` (the default
border mode of `GaussianBlur`): index `p` is reflected into `[0, n)`
without repeating the edge sample (`-1 ↦ 1`, `n ↦ n-2`, …); for `n = 1`
every index maps to `0`.  Closed form: reduce `p` modulo the period
`2·(n-1)` and fold the upper half back. -/
def reflect101 (n : ℕ) (p : ℤ) : ℕ :=
  if n ≤ 1 then 0
  else if p % (2 * ((n : ℤ) - 1)) < (n : ℤ) then (p % (2 * ((n : ℤ) - 1))).toNat
  else (2 * ((n : ℤ) - 1) - p % (2 * ((n : ℤ) - 1))).toNat

/-- Modelled from the spec: the numeric content of `cv2.GaussianBlur(·,
(21, 21), sigmaX=0, sigmaY=0)` lives inside the OpenCV library (not in
this repository's sources) and is floating-point; the spec (§4.3 step 3)
describes it as a separable Gaussian kernel with sigma derived
automatically from the kernel size.  OpenCV's rule gives
`sigma = 0.3·((21-1)·0.5 - 1) + 0.8 = 3.5`, so the unnormalised 1-D tap
`k` (distance `d = |k - 10|` from the centre) has weight
`exp(-d²/(2·3.5²))`.  `gaussRaw` lists these 21 weights scaled by `10^6`
and rounded — a rational approximation of the library's doubles.  The
entries sum to `8750090` (see `gaussRaw_sum`), so tap `k` has the
normalised weight `gaussRaw.getD k 0 / 8750090`. -/
def gaussRaw : List ℕ :=
  [16880, 36658, 73369, 135335, 230065, 360447, 520451, 692569, 849366,
   959905, 1000000, 959905, 849366, 692569, 520451, 360447, 230065,
   135335, 73369, 36658, 16880]

/-- Modelled from the spec: `cv2.GaussianBlur(g, (21, 21), sigmaX=0,
sigmaY=0)` — a 21×21 Gaussian smoothing with the normalised weights of
`gaussRaw` and the default `BORDER_REFLECT_101` border handling, the
result rounded to the nearest integer sample.  Everything is computed in
integers: with `D = 8750090 · 8750090` the weighted sum is
`S / D` with `S` the integer sum below, and rounding it to the nearest
natural number is `(2·S + D) / (2·D)` (floor division). -/
def gaussianBlur21 (g : Gray) : Gray :=
  ⟨g.height, g.width, fun i j =>
    (2 * (∑ di ∈ Finset.range 21, ∑ dj ∈ Finset.range 21,
        gaussRaw.getD di 0 * gaussRaw.getD dj 0 *
          g.data (reflect101 g.height ((i : ℤ) + (di : ℤ) - 10))
                 (reflect101 g.width ((j : ℤ) + (dj : ℤ) - 10)))
      + 8750090 * 8750090) / (2 * (8750090 * 8750090))⟩

/-- `cv2.divide(a, b, scale=256.0)` on `uint8` samples:
`dst = b ≠ 0 ? saturate_cast<uchar>(round(a·256/b)) : 0` — OpenCV's
documented convention sets the result to `0` where the divisor is `0`.
For `b ≠ 0` the exact value `a·256/b` can never be a half-integer
(that would force `2^9 ∣ b` with `b ≤ 255`), so rounding to nearest is
unambiguous and equals `⌊(512·a + b) / (2·b)⌋`; saturation clamps to
`255` (the value is never negative). -/
def cv2_divide_scale256 (a b : ℕ) : ℕ :=
  if b = 0 then 0 else min ((512 * a + b) / (2 * b)) 255

/-- The numeric core of `photo_to_sketch` (src/picture_to_sketch.py lines
56–65): invert the grayscale, Gaussian-blur the inversion, invert the
blur, then divide the grayscale by the result with scale 256. -/
def sketch_effect (gray : Gray) : Gray :=
  ⟨gray.height, gray.width, fun i j =>
    cv2_divide_scale256 (gray.data i j)
      ((bitwise_not (gaussianBlur21 (bitwise_not gray))).data i j)⟩

/-- Validation failures of the two transforms (the scripts report them as
an error message / `ValueError`; the spec names them `UnsupportedFormat`
and `MissingAlphaChannel`). -/
inductive PicError where
  | unsupportedFormat
  | missingAlphaChannel
deriving DecidableEq

/-- `photo_to_sketch` (src/picture_to_sketch.py) from the point where the
decoded buffer `img` is in hand (file existence and decoding are external
I/O).  A 2-dimensional array (1 channel) is used as the grayscale
directly; a 3-channel buffer is converted with `COLOR_BGR2GRAY`; a
4-channel buffer is split into BGR and alpha, the sketch is computed from
the BGR part and merged as `[sketch, sketch, sketch, alpha]`; any other
channel count is an unsupported-format failure. -/
def photo_to_sketch (img : Img) : Except PicError Img :=
  if img.channels = 1 then
    .ok (Gray.toImg (sketch_effect ⟨img.height, img.width, fun i j => img.data i j 0⟩))
  else if img.channels = 3 then
    .ok (Gray.toImg (sketch_effect (cvtColor_BGR2GRAY img)))
  else if img.channels = 4 then
    .ok ⟨img.height, img.width, 4, fun i j c =>
      if c = 3 then img.data i j 3
      else (sketch_effect (cvtColor_BGR2GRAY img)).data i j⟩
  else .error .unsupportedFormat

/-- The grayscale buffer the sketch pipeline starts from: a 1-channel
input is taken as-is, otherwise `cvtColor(·, COLOR_BGR2GRAY)` (which only
reads channels 0–2, so the 4-channel case coincides with converting the
BGR slice). -/
def grayOf (img : Img) : Gray :=
  if img.channels = 1 then ⟨img.height, img.width, fun i j => img.data i j 0⟩
  else cvtColor_BGR2GRAY img

/-- The `inverted_blurred` intermediate of the sketch pipeline: the
inversion of the blur of the inversion of the grayscale. -/
def invBlurredOf (img : Img) : Gray :=
  bitwise_not (gaussianBlur21 (bitwise_not (grayOf img)))

/-- The per-pixel sketch formula exactly as the specification words it
(§4.3 step 5): `clamp(luma[p] · 256 / max(invBlurred[p], 1), 0, 255)`,
with `/` the integer division.  Declared only to be compared against the
code's `cv2_divide_scale256`. -/
def specSketchFormula (luma invB : ℕ) : ℕ :=
  min (luma * 256 / max invB 1) 255

/-- `cv2.threshold(g, threshold, 255, cv2.THRESH_BINARY)` (second return
value): each sample becomes `255` when strictly greater than the
threshold and `0` otherwise (for 8-bit input OpenCV compares against
`cvFloor` of the double threshold; the scripts pass the integer 127). -/
def cv2_threshold_binary (g : Gray) (threshold : ℕ) : Gray :=
  ⟨g.height, g.width, fun i j => if g.data i j > threshold then 255 else 0⟩

/-- Channel `c` of a BGR colour triple `(b, g, r)` stored in a pixel
(channel 0 = blue, 1 = green, 2 = red; other channels unused). -/
def bgrChannel (t : ℕ × ℕ × ℕ) (c : ℕ) : ℕ :=
  match c with
  | 0 => t.1
  | 1 => t.2.1
  | 2 => t.2.2
  | _ => 0

/-- The output buffer built by `portrait_to_bichrome_transparent`
(src/picture_to_bichrome.py lines 46–67) for a 4-channel input: a zeroed
RGBA buffer where pixels whose thresholded luma is `0` receive
`(0, 0, 0, 255)`, pixels whose thresholded luma is `255` receive the
caller's colour reversed to BGR order (`color[::-1]`) with alpha `255`,
and channel 3 is finally overwritten with the input's alpha channel.
`color` is the caller-supplied RGB triple `(r, g, b)`, so the BGR triple
written is `(color.2.2, color.2.1, color.1)`. -/
def bichrome_result (img : Img) (color : ℕ × ℕ × ℕ) (threshold : ℕ) : Img :=
  ⟨img.height, img.width, 4, fun i j c =>
    if c = 3 then img.data i j 3
    else if (cv2_threshold_binary (cvtColor_BGR2GRAY img) threshold).data i j = 0 then 0
    else if (cv2_threshold_binary (cvtColor_BGR2GRAY img) threshold).data i j = 255 then
      bgrChannel (color.2.2, color.2.1, color.1) c
    else 0⟩

/-- `portrait_to_bichrome_transparent` (src/picture_to_bichrome.py) from
the point where the decoded buffer is in hand (file existence, decoding
and writing are external I/O).  A buffer without exactly 4 channels is
rejected with the missing-alpha-channel `ValueError` before any pixel
processing; otherwise the bichrome RGBA buffer is produced. -/
def portrait_to_bichrome_transparent (img : Img) (color : ℕ × ℕ × ℕ)
    (threshold : ℕ) : Except PicError Img :=
  if img.channels ≠ 4 then .error .missingAlphaChannel
  else .ok (bichrome_result img color threshold)

/-- The RGB colour of pixel `(i, j)` of a buffer stored in OpenCV's BGR
channel order: `(red, green, blue) = (channel 2, channel 1, channel 0)`. -/
def rgbOf (img : Img) (i j : ℕ) : ℕ × ℕ × ℕ :=
  (img.data i j 2, img.data i j 1, img.data i j 0)

/-! Concrete example buffers used by witnesses and counterexamples. -/

/-- A 1×1 3-channel (BGR) buffer with all samples 7. -/
def ex3 : Img := ⟨1, 1, 3, fun _ _ _ => 7⟩

/-- A 1×1 4-channel (BGRA) buffer with all samples 9. -/
def ex4 : Img := ⟨1, 1, 4, fun _ _ _ => 9⟩

/-- A 1×1 2-channel buffer (a channel count no branch accepts). -/
def ex2 : Img := ⟨1, 1, 2, fun _ _ _ => 0⟩

/-- A 1×1 grayscale buffer with the single sample 5. -/
def ex1g : Img := ⟨1, 1, 1, fun _ _ _ => 5⟩

/-- A 1×1 grayscale buffer with constant luma 7 (a uniform flat image). -/
def exU : Img := ⟨1, 1, 1, fun _ _ _ => 7⟩

/-- A 1×21 grayscale buffer that is black except for luma 1 at column 10:
blurring its inversion rounds back up to 255 at the centre pixel, so the
`inverted_blurred` denominator there is 0 while the luma is 1. -/
def exDiv : Img := ⟨1, 21, 1, fun _ j _ => if j = 10 then 1 else 0⟩

/-- The 2×2 RGBA buffer of the spec's end-to-end example: grey levels
100, 150, 200, 250 (so the luma samples are exactly those values) and
alpha samples 10, 20, 30, 40. -/
def img8 : Img :=
  ⟨2, 2, 4, fun i j c =>
    if c = 3 then 10 * (1 + j + 2 * i) else 100 + 50 * (j + 2 * i)⟩

/-! Helper lemmas. -/

/-- Reflected border indices always land inside a non-empty extent. -/
theorem reflect101_lt (n : ℕ) (hn : 0 < n) (p : ℤ) : reflect101 n p < n := by
  unfold reflect101
  by_cases h1 : n ≤ 1
  · simpa [h1] using hn
  · have hm : (0 : ℤ) < 2 * ((n : ℤ) - 1) := by
      have h2 : 2 ≤ n := Nat.lt_of_not_le h1
      have : (2 : ℤ) ≤ (n : ℤ) := by exact_mod_cast h2
      omega
    have h0 : 0 ≤ p % (2 * ((n : ℤ) - 1)) := Int.emod_nonneg p (by omega)
    have h2 : p % (2 * ((n : ℤ) - 1)) < 2 * ((n : ℤ) - 1) := Int.emod_lt_of_pos p hm
    by_cases h3 : p % (2 * ((n : ℤ) - 1)) < (n : ℤ)
    · rw [if_neg h1, if_pos h3]
      omega
    · rw [if_neg h1, if_neg h3]
      omega

/-- The 21 raw Gaussian taps sum to 8750090. -/
theorem gaussRaw_sum : (∑ k ∈ Finset.range 21, gaussRaw.getD k 0) = 8750090 := by decide

/-- Rounding `(D·c) / D` to the nearest natural number gives back `c`. -/
theorem round_div_const (D c : ℕ) (hD : 0 < D) : (2 * (D * c) + D) / (2 * D) = c := by
  rw [show 2 * (D * c) + D = D * (2 * c + 1) by ring, show 2 * D = D * 2 by ring,
    Nat.mul_div_mul_left _ _ hD]
  omega

/-- The blur of a buffer that is constant on its extent is that constant
at every in-range pixel (the kernel weights sum to exactly 1). -/
theorem gaussianBlur21_const (g : Gray) (c : ℕ)
    (hg : ∀ i j, i < g.height → j < g.width → g.data i j = c)
    (i j : ℕ) (hi : i < g.height) (hj : j < g.width) :
    (gaussianBlur21 g).data i j = c := by
  have hh : 0 < g.height := Nat.lt_of_le_of_lt (Nat.zero_le i) hi
  have hw : 0 < g.width := Nat.lt_of_le_of_lt (Nat.zero_le j) hj
  have key : (∑ di ∈ Finset.range 21, ∑ dj ∈ Finset.range 21,
      gaussRaw.getD di 0 * gaussRaw.getD dj 0 *
        g.data (reflect101 g.height ((i : ℤ) + (di : ℤ) - 10))
               (reflect101 g.width ((j : ℤ) + (dj : ℤ) - 10)))
      = 8750090 * 8750090 * c := by
    have step1 : ∀ di ∈ Finset.range 21, (∑ dj ∈ Finset.range 21,
        gaussRaw.getD di 0 * gaussRaw.getD dj 0 *
          g.data (reflect101 g.height ((i : ℤ) + (di : ℤ) - 10))
                 (reflect101 g.width ((j : ℤ) + (dj : ℤ) - 10)))
        = gaussRaw.getD di 0 * 8750090 * c := by
      intro di _
      calc (∑ dj ∈ Finset.range 21,
              gaussRaw.getD di 0 * gaussRaw.getD dj 0 *
                g.data (reflect101 g.height ((i : ℤ) + (di : ℤ) - 10))
                       (reflect101 g.width ((j : ℤ) + (dj : ℤ) - 10)))
          = ∑ dj ∈ Finset.range 21, gaussRaw.getD di 0 * gaussRaw.getD dj 0 * c := by
            refine Finset.sum_congr rfl fun dj _ => ?_
            rw [hg _ _ (reflect101_lt _ hh _) (reflect101_lt _ hw _)]
        _ = gaussRaw.getD di 0 * 8750090 * c := by
            rw [← Finset.sum_mul, ← Finset.mul_sum, gaussRaw_sum]
    calc (∑ di ∈ Finset.range 21, ∑ dj ∈ Finset.range 21,
            gaussRaw.getD di 0 * gaussRaw.getD dj 0 *
              g.data (reflect101 g.height ((i : ℤ) + (di : ℤ) - 10))
                     (reflect101 g.width ((j : ℤ) + (dj : ℤ) - 10)))
        = ∑ di ∈ Finset.range 21, gaussRaw.getD di 0 * 8750090 * c :=
          Finset.sum_congr rfl step1
      _ = 8750090 * 8750090 * c := by
          rw [← Finset.sum_mul, ← Finset.sum_mul, gaussRaw_sum]
  simp only [gaussianBlur21]
  rw [key]
  exact round_div_const (8750090 * 8750090) c (by norm_num)

/-- The per-pixel result of the divide step, spelled out. -/
theorem sketch_effect_data (g : Gray) (i j : ℕ) :
    (sketch_effect g).data i j =
      cv2_divide_scale256 (g.data i j)
        ((bitwise_not (gaussianBlur21 (bitwise_not g))).data i j) := rfl

/-- The divide step never produces a sample above 255. -/
theorem cv2_divide_scale256_le (a b : ℕ) : cv2_divide_scale256 a b ≤ 255 := by
  unfold cv2_divide_scale256
  split
  · omega
  · exact min_le_right _ _

/-- Dividing a sample by itself: 0 for a zero sample, otherwise the scale
256 saturates to 255. -/
theorem cv2_divide_scale256_self (v : ℕ) :
    cv2_divide_scale256 v v = if v = 0 then 0 else 255 := by
  unfold cv2_divide_scale256
  by_cases h : v = 0
  · simp [h]
  · have hv2 : 0 < 2 * v := by omega
    rw [if_neg h, if_neg h, show 512 * v + v = v + 2 * v * 256 by ring,
      Nat.add_mul_div_left _ _ hv2, Nat.div_eq_of_lt (by omega)]
    rfl

/-- On a buffer of constant luma `v ≤ 255`, the sketch sample at every
in-range pixel is `v / v` scaled and saturated. -/
theorem sketch_effect_const (g : Gray) (v : ℕ) (hv : v ≤ 255)
    (hg : ∀ i j, i < g.height → j < g.width → g.data i j = v)
    (i j : ℕ) (hi : i < g.height) (hj : j < g.width) :
    (sketch_effect g).data i j = cv2_divide_scale256 v v := by
  have hb : (gaussianBlur21 (bitwise_not g)).data i j = 255 - v := by
    refine gaussianBlur21_const (bitwise_not g) (255 - v) ?_ i j hi hj
    intro a b ha hb
    show 255 - g.data a b = 255 - v
    rw [hg a b ha hb]
  rw [sketch_effect_data]
  have h2 : (bitwise_not (gaussianBlur21 (bitwise_not g))).data i j = v := by
    show 255 - (gaussianBlur21 (bitwise_not g)).data i j = v
    rw [hb, Nat.sub_sub_self hv]
  rw [h2, hg i j hi hj]

/-! Claim theorems. -/

/-- C3: in the bichrome transform, a luma sample is classified light
(thresholded value 255) exactly when it is strictly greater than the
threshold; a strictly greater sample maps to the accent colour, and a
sample exactly equal to the threshold maps to black. -/
theorem C3_bichrome_threshold (img : Img) (color : ℕ × ℕ × ℕ) (threshold : ℕ)
    (h4 : img.channels = 4) (i j : ℕ) (hi : i < img.height) (hj : j < img.width) :
    ∃ out, portrait_to_bichrome_transparent img color threshold = .ok out ∧
      ((cv2_threshold_binary (cvtColor_BGR2GRAY img) threshold).data i j = 255 ↔
        threshold < (cvtColor_BGR2GRAY img).data i j) ∧
      (threshold < (cvtColor_BGR2GRAY img).data i j → rgbOf out i j = color) ∧
      ((cvtColor_BGR2GRAY img).data i j = threshold → rgbOf out i j = (0, 0, 0)) := by
  refine ⟨bichrome_result img color threshold,
    by simp [portrait_to_bichrome_transparent, h4], ?_, ?_, ?_⟩
  · by_cases h : threshold < (cvtColor_BGR2GRAY img).data i j <;>
      simp [cv2_threshold_binary, h]
  · intro h
    simp [rgbOf, bichrome_result, cv2_threshold_binary, bgrChannel, h, h.not_le]
  · intro h
    have h2 : ¬ threshold < (cvtColor_BGR2GRAY img).data i j := by omega
    simp [rgbOf, bichrome_result, cv2_threshold_binary, bgrChannel, h2]

/-- Witness for C3 at the concrete 2×2 example buffer. -/
theorem C3_bichrome_threshold_witness :
    img8.channels = 4 ∧ 0 < img8.height ∧ 0 < img8.width ∧
    (∃ out, portrait_to_bichrome_transparent img8 (0, 255, 0) 127 = .ok out ∧
      ((cv2_threshold_binary (cvtColor_BGR2GRAY img8) 127).data 0 0 = 255 ↔
        127 < (cvtColor_BGR2GRAY img8).data 0 0) ∧
      (127 < (cvtColor_BGR2GRAY img8).data 0 0 → rgbOf out 0 0 = (0, 255, 0)) ∧
      ((cvtColor_BGR2GRAY img8).data 0 0 = 127 → rgbOf out 0 0 = (0, 0, 0))) :=
  ⟨rfl, by decide, by decide,
    C3_bichrome_threshold img8 (0, 255, 0) 127 rfl 0 0 (by decide) (by decide)⟩

/-- C4: every pixel of the bichrome output is either black or exactly the
caller-supplied accent colour. -/
theorem C4_bichrome_two_colors (img : Img) (color : ℕ × ℕ × ℕ) (threshold : ℕ)
    (h4 : img.channels = 4) (i j : ℕ) (hi : i < img.height) (hj : j < img.width) :
    ∃ out, portrait_to_bichrome_transparent img color threshold = .ok out ∧
      (rgbOf out i j = (0, 0, 0) ∨ rgbOf out i j = color) := by
  refine ⟨bichrome_result img color threshold,
    by simp [portrait_to_bichrome_transparent, h4], ?_⟩
  by_cases h : threshold < (cvtColor_BGR2GRAY img).data i j
  · right
    simp [rgbOf, bichrome_result, cv2_threshold_binary, bgrChannel, h, h.not_le]
  · left
    simp [rgbOf, bichrome_result, cv2_threshold_binary, bgrChannel, h]

/-- Witness for C4 at the concrete 2×2 example buffer. -/
theorem C4_bichrome_two_colors_witness :
    img8.channels = 4 ∧ 0 < img8.height ∧ 0 < img8.width ∧
    (∃ out, portrait_to_bichrome_transparent img8 (7, 8, 9) 127 = .ok out ∧
      (rgbOf out 1 1 = (0, 0, 0) ∨ rgbOf out 1 1 = (7, 8, 9))) :=
  ⟨rfl, by decide, by decide,
    C4_bichrome_two_colors img8 (7, 8, 9) 127 rfl 1 1 (by decide) (by decide)⟩

/-- C5: the alpha channel of the bichrome output is pixel-for-pixel the
input's alpha channel. -/
theorem C5_bichrome_alpha (img : Img) (color : ℕ × ℕ × ℕ) (threshold : ℕ)
    (h4 : img.channels = 4) (i j : ℕ) (hi : i < img.height) (hj : j < img.width) :
    ∃ out, portrait_to_bichrome_transparent img color threshold = .ok out ∧
      out.data i j 3 = img.data i j 3 := by
  refine ⟨bichrome_result img color threshold,
    by simp [portrait_to_bichrome_transparent, h4], ?_⟩
  simp [bichrome_result]

/-- Witness for C5 at the concrete 2×2 example buffer. -/
theorem C5_bichrome_alpha_witness :
    img8.channels = 4 ∧ 0 < img8.height ∧ 0 < img8.width ∧
    (∃ out, portrait_to_bichrome_transparent img8 (7, 8, 9) 127 = .ok out ∧
      out.data 0 1 3 = img8.data 0 1 3) :=
  ⟨rfl, by decide, by decide,
    C5_bichrome_alpha img8 (7, 8, 9) 127 rfl 0 1 (by decide) (by decide)⟩

/-- C6: an input buffer without exactly 4 channels makes the bichrome
transform fail with the missing-alpha-channel validation error, producing
no output buffer. -/
theorem C6_bichrome_missing_alpha (img : Img) (color : ℕ × ℕ × ℕ) (threshold : ℕ)
    (h : img.channels ≠ 4) :
    portrait_to_bichrome_transparent img color threshold = .error .missingAlphaChannel := by
  simp [portrait_to_bichrome_transparent, h]

/-- Witness for C6 at a concrete 3-channel buffer. -/
theorem C6_bichrome_missing_alpha_witness :
    ex3.channels ≠ 4 ∧
      portrait_to_bichrome_transparent ex3 (1, 2, 3) 127 = .error .missingAlphaChannel :=
  ⟨by decide, C6_bichrome_missing_alpha ex3 (1, 2, 3) 127 (by decide)⟩

/-- C8: on the 2×2 RGBA example with luma samples 100, 150, 200, 250,
threshold 127 and accent (0, 255, 0), the output RGB per pixel is black,
green, green, green, and the output alpha equals the input alpha
(10, 20, 30, 40). -/
theorem C8_bichrome_example :
    (cvtColor_BGR2GRAY img8).data 0 0 = 100 ∧
    (cvtColor_BGR2GRAY img8).data 0 1 = 150 ∧
    (cvtColor_BGR2GRAY img8).data 1 0 = 200 ∧
    (cvtColor_BGR2GRAY img8).data 1 1 = 250 ∧
    (portrait_to_bichrome_transparent img8 (0, 255, 0) 127).map
      (fun o => (rgbOf o 0 0, rgbOf o 0 1, rgbOf o 1 0, rgbOf o 1 1,
                 o.data 0 0 3, o.data 0 1 3, o.data 1 0 3, o.data 1 1 3)) =
      .ok ((0, 0, 0), (0, 255, 0), (0, 255, 0), (0, 255, 0), 10, 20, 30, 40) ∧
    img8.data 0 0 3 = 10 ∧ img8.data 0 1 3 = 20 ∧
    img8.data 1 0 3 = 30 ∧ img8.data 1 1 3 = 40 :=
  ⟨rfl, rfl, rfl, rfl, rfl, rfl, rfl, rfl, rfl⟩

/-- C10 (implicit): the bichrome output stores its colour channels in BGR
order — a light pixel gets the accent triple `(r, g, b)` written reversed
(channel 0 = blue, channel 2 = red), a dark pixel gets 0 in all three
colour channels. -/
theorem C10_bichrome_bgr_order (img : Img) (color : ℕ × ℕ × ℕ) (threshold : ℕ)
    (h4 : img.channels = 4) (i j : ℕ) (hi : i < img.height) (hj : j < img.width) :
    ∃ out, portrait_to_bichrome_transparent img color threshold = .ok out ∧
      (threshold < (cvtColor_BGR2GRAY img).data i j →
        out.data i j 0 = color.2.2 ∧ out.data i j 1 = color.2.1 ∧
        out.data i j 2 = color.1) ∧
      (¬ threshold < (cvtColor_BGR2GRAY img).data i j →
        out.data i j 0 = 0 ∧ out.data i j 1 = 0 ∧ out.data i j 2 = 0) := by
  refine ⟨bichrome_result img color threshold,
    by simp [portrait_to_bichrome_transparent, h4], ?_, ?_⟩
  · intro h
    refine ⟨?_, ?_, ?_⟩ <;>
      simp [bichrome_result, cv2_threshold_binary, bgrChannel, h]
  · intro h
    refine ⟨?_, ?_, ?_⟩ <;>
      simp [bichrome_result, cv2_threshold_binary, bgrChannel, h]

/-- Witness for C10 at the concrete 2×2 example buffer. -/
theorem C10_bichrome_bgr_order_witness :
    img8.channels = 4 ∧ 0 < img8.height ∧ 0 < img8.width ∧
    (∃ out, portrait_to_bichrome_transparent img8 (7, 8, 9) 127 = .ok out ∧
      (127 < (cvtColor_BGR2GRAY img8).data 0 1 →
        out.data 0 1 0 = 9 ∧ out.data 0 1 1 = 8 ∧ out.data 0 1 2 = 7) ∧
      (¬ 127 < (cvtColor_BGR2GRAY img8).data 0 1 →
        out.data 0 1 0 = 0 ∧ out.data 0 1 1 = 0 ∧ out.data 0 1 2 = 0)) :=
  ⟨rfl, by decide, by decide,
    C10_bichrome_bgr_order img8 (7, 8, 9) 127 rfl 0 1 (by decide) (by decide)⟩

/-- C7: an input buffer whose channel count is not 1, 3 or 4 makes the
sketch transform fail with the unsupported-format error, producing no
output buffer. -/
theorem C7_sketch_unsupported (img : Img)
    (h1 : img.channels ≠ 1) (h3 : img.channels ≠ 3) (h4 : img.channels ≠ 4) :
    photo_to_sketch img = .error .unsupportedFormat := by
  simp [photo_to_sketch, h1, h3, h4]

/-- Witness for C7 at a concrete 2-channel buffer. -/
theorem C7_sketch_unsupported_witness :
    ex2.channels ≠ 1 ∧ ex2.channels ≠ 3 ∧ ex2.channels ≠ 4 ∧
      photo_to_sketch ex2 = .error .unsupportedFormat :=
  ⟨by decide, by decide, by decide,
    C7_sketch_unsupported ex2 (by decide) (by decide) (by decide)⟩

/-- C1 (amended): the sketch transform preserves width and height for
every valid channel count, and the output channel count is 4 for a
4-channel input and 1 otherwise (a 3-channel input yields a 1-channel
grayscale sketch, not a 3-channel one). -/
theorem C1_sketch_shape (img : Img)
    (h : img.channels = 1 ∨ img.channels = 3 ∨ img.channels = 4) :
    ∃ out, photo_to_sketch img = .ok out ∧ out.height = img.height ∧
      out.width = img.width ∧
      out.channels = (if img.channels = 4 then 4 else 1) := by
  rcases h with h | h | h
  · refine ⟨Gray.toImg (sketch_effect ⟨img.height, img.width, fun a b => img.data a b 0⟩),
      by simp [photo_to_sketch, h], rfl, rfl, ?_⟩
    rw [h]
    rfl
  · refine ⟨Gray.toImg (sketch_effect (cvtColor_BGR2GRAY img)),
      by simp [photo_to_sketch, h], rfl, rfl, ?_⟩
    rw [h]
    rfl
  · refine ⟨⟨img.height, img.width, 4, fun a b c =>
      if c = 3 then img.data a b 3
      else (sketch_effect (cvtColor_BGR2GRAY img)).data a b⟩,
      by simp [photo_to_sketch, h], rfl, rfl, ?_⟩
    rw [h]
    rfl

/-- Witness for C1 at a concrete 4-channel buffer. -/
theorem C1_sketch_shape_witness :
    (ex4.channels = 1 ∨ ex4.channels = 3 ∨ ex4.channels = 4) ∧
    (∃ out, photo_to_sketch ex4 = .ok out ∧ out.height = ex4.height ∧
      out.width = ex4.width ∧
      out.channels = (if ex4.channels = 4 then 4 else 1)) :=
  ⟨by decide, C1_sketch_shape ex4 (by decide)⟩

/-- Counterexample for C1 as stated: the concrete 3-channel buffer `ex3`
yields a 1-channel output, not the 3-channel output the claim requires
(the script only replicates the sketch into colour channels when the
input had an alpha channel). -/
theorem C1_sketch_shape_counterexample :
    ex3.channels = 3 ∧
    (photo_to_sketch ex3).toOption.map Img.channels = some 1 ∧
    (photo_to_sketch ex3).toOption.map Img.channels ≠ some 3 :=
  ⟨rfl, rfl, by decide⟩

/-- C2 (amended): every sketch sample is produced by OpenCV's saturating
scaled division of the luma by the inverted blur: where the denominator
is nonzero this is `round(luma·256/denominator)` clamped to 255, and
where the denominator is zero the sample is 0 (OpenCV's division-by-zero
convention); no sample ever exceeds 255. -/
theorem C2_sketch_divide (img : Img)
    (h : img.channels = 1 ∨ img.channels = 3 ∨ img.channels = 4)
    (i j : ℕ) (hi : i < img.height) (hj : j < img.width) :
    ∃ out, photo_to_sketch img = .ok out ∧
      out.data i j 0 =
        cv2_divide_scale256 ((grayOf img).data i j) ((invBlurredOf img).data i j) ∧
      ((invBlurredOf img).data i j = 0 → out.data i j 0 = 0) ∧
      out.data i j 0 ≤ 255 := by
  have tail : ∀ out : Img, photo_to_sketch img = .ok out →
      out.data i j 0 =
        cv2_divide_scale256 ((grayOf img).data i j) ((invBlurredOf img).data i j) →
      ∃ out2, photo_to_sketch img = .ok out2 ∧
        out2.data i j 0 =
          cv2_divide_scale256 ((grayOf img).data i j) ((invBlurredOf img).data i j) ∧
        ((invBlurredOf img).data i j = 0 → out2.data i j 0 = 0) ∧
        out2.data i j 0 ≤ 255 := by
    intro out h1 h2
    refine ⟨out, h1, h2, ?_, ?_⟩
    · intro h0
      rw [h2, h0]
      rfl
    · rw [h2]
      exact cv2_divide_scale256_le _ _
  rcases h with h | h | h
  · have hg : grayOf img = ⟨img.height, img.width, fun a b => img.data a b 0⟩ := by
      simp [grayOf, h]
    refine tail (Gray.toImg (sketch_effect ⟨img.height, img.width, fun a b => img.data a b 0⟩))
      (by simp [photo_to_sketch, h]) ?_
    simp only [invBlurredOf, hg]
    rfl
  · have hg : grayOf img = cvtColor_BGR2GRAY img := by
      simp [grayOf, h]
    refine tail (Gray.toImg (sketch_effect (cvtColor_BGR2GRAY img)))
      (by simp [photo_to_sketch, h]) ?_
    simp only [invBlurredOf, hg]
    rfl
  · have hg : grayOf img = cvtColor_BGR2GRAY img := by
      simp [grayOf, h]
    refine tail ⟨img.height, img.width, 4, fun a b c =>
      if c = 3 then img.data a b 3
      else (sketch_effect (cvtColor_BGR2GRAY img)).data a b⟩
      (by simp [photo_to_sketch, h]) ?_
    simp only [invBlurredOf, hg]
    show (if (0 : ℕ) = 3 then img.data i j 3
        else (sketch_effect (cvtColor_BGR2GRAY img)).data i j) =
      cv2_divide_scale256 ((cvtColor_BGR2GRAY img).data i j)
        ((bitwise_not (gaussianBlur21 (bitwise_not (cvtColor_BGR2GRAY img)))).data i j)
    rw [if_neg (show ¬ (0 : ℕ) = 3 by decide)]
    exact sketch_effect_data _ i j

/-- Witness for C2 at a concrete 1×1 grayscale buffer. -/
theorem C2_sketch_divide_witness :
    (ex1g.channels = 1 ∨ ex1g.channels = 3 ∨ ex1g.channels = 4) ∧
    0 < ex1g.height ∧ 0 < ex1g.width ∧
    (∃ out, photo_to_sketch ex1g = .ok out ∧
      out.data 0 0 0 =
        cv2_divide_scale256 ((grayOf ex1g).data 0 0) ((invBlurredOf ex1g).data 0 0) ∧
      ((invBlurredOf ex1g).data 0 0 = 0 → out.data 0 0 0 = 0) ∧
      out.data 0 0 0 ≤ 255) :=
  ⟨by decide, by decide, by decide,
    C2_sketch_divide ex1g (by decide) 0 0 (by decide) (by decide)⟩

/-- Counterexample for C2 as stated: on the 1×21 buffer `exDiv` the centre
pixel has luma 1, its inverted blur is 0 (the blur of the inversion
rounds back up to 255), and the script outputs sample 0 there, while the
spec formula `clamp(luma·256/max(invBlurred,1), 0, 255)` demands 255. -/
theorem C2_sketch_divide_counterexample :
    (grayOf exDiv).data 0 10 = 1 ∧
    (invBlurredOf exDiv).data 0 10 = 0 ∧
    (photo_to_sketch exDiv).toOption.map (fun o => o.data 0 10 0) = some 0 ∧
    specSketchFormula ((grayOf exDiv).data 0 10) ((invBlurredOf exDiv).data 0 10) = 255 :=
  ⟨by decide, by decide, rfl, by decide⟩

/-- C9: a uniform input (constant luma `v` at every in-range pixel)
produces a uniform sketch: the blur of a constant field is that constant,
so every in-range output sample of every colour channel is the same
value. -/
theorem C9_sketch_uniform (img : Img) (v : ℕ)
    (h : img.channels = 1 ∨ img.channels = 3 ∨ img.channels = 4)
    (hv : v ≤ 255)
    (huni : ∀ i j, i < img.height → j < img.width → (grayOf img).data i j = v) :
    ∃ out, photo_to_sketch img = .ok out ∧
      ∀ i j i2 j2 c c2, i < img.height → j < img.width →
        i2 < img.height → j2 < img.width → c ≠ 3 → c2 ≠ 3 →
        out.data i j c = out.data i2 j2 c2 := by
  rcases h with h | h | h
  · have hg : grayOf img = ⟨img.height, img.width, fun a b => img.data a b 0⟩ := by
      simp [grayOf, h]
    rw [hg] at huni
    refine ⟨Gray.toImg (sketch_effect ⟨img.height, img.width, fun a b => img.data a b 0⟩),
      by simp [photo_to_sketch, h], ?_⟩
    intro i j i2 j2 c c2 hi hj hi2 hj2 _ _
    show (sketch_effect _).data i j = (sketch_effect _).data i2 j2
    rw [sketch_effect_const _ v hv huni i j hi hj,
      sketch_effect_const _ v hv huni i2 j2 hi2 hj2]
  · have hg : grayOf img = cvtColor_BGR2GRAY img := by
      simp [grayOf, h]
    rw [hg] at huni
    refine ⟨Gray.toImg (sketch_effect (cvtColor_BGR2GRAY img)),
      by simp [photo_to_sketch, h], ?_⟩
    intro i j i2 j2 c c2 hi hj hi2 hj2 _ _
    show (sketch_effect _).data i j = (sketch_effect _).data i2 j2
    rw [sketch_effect_const _ v hv huni i j hi hj,
      sketch_effect_const _ v hv huni i2 j2 hi2 hj2]
  · have hg : grayOf img = cvtColor_BGR2GRAY img := by
      simp [grayOf, h]
    rw [hg] at huni
    refine ⟨⟨img.height, img.width, 4, fun a b c =>
      if c = 3 then img.data a b 3
      else (sketch_effect (cvtColor_BGR2GRAY img)).data a b⟩,
      by simp [photo_to_sketch, h], ?_⟩
    intro i j i2 j2 c c2 hi hj hi2 hj2 hc hc2
    show (if c = 3 then img.data i j 3 else (sketch_effect (cvtColor_BGR2GRAY img)).data i j)
      = (if c2 = 3 then img.data i2 j2 3 else (sketch_effect (cvtColor_BGR2GRAY img)).data i2 j2)
    rw [if_neg hc, if_neg hc2, sketch_effect_const _ v hv huni i j hi hj,
      sketch_effect_const _ v hv huni i2 j2 hi2 hj2]

/-- Witness for C9 at a concrete uniform 1×1 grayscale buffer. -/
theorem C9_sketch_uniform_witness :
    (exU.channels = 1 ∨ exU.channels = 3 ∨ exU.channels = 4) ∧ (7 : ℕ) ≤ 255 ∧
    (∀ i j, i < exU.height → j < exU.width → (grayOf exU).data i j = 7) ∧
    (∃ out, photo_to_sketch exU = .ok out ∧
      ∀ i j i2 j2 c c2, i < exU.height → j < exU.width →
        i2 < exU.height → j2 < exU.width → c ≠ 3 → c2 ≠ 3 →
        out.data i j c = out.data i2 j2 c2) :=
  ⟨by decide, by decide, fun _ _ _ _ => rfl,
    C9_sketch_uniform exU 7 (by decide) (by decide) (fun _ _ _ _ => rfl)⟩

end PicturesManipulation
